import Mathlib

/-!
# EcoTrack server — shallow embedding

A shallow embedding of the single-file Express/MongoDB backend
(`src/index.js`) of the EcoTrack challenge-tracking application, together
with proofs about the route handlers and data-access operations the
specification describes.

Modelling conventions:

* BSON/JSON values are the inductive `Value`.  `Value.vUndef` models the
  JavaScript `undefined` produced by destructuring an absent body field;
  the MongoDB driver (default `ignoreUndefined:false`) serializes
  `undefined` as `null`, modelled by `normVal`.
* `Value.vDate t` models a JavaScript `Date` for the abstract instant `t`
  (a natural-number clock passed to each operation), and `Value.vDateStr t`
  models the ISO-8601 *string* `new Date(t).toISOString()`; the string's
  spelling is kept abstract, only the instant matters to the properties
  proved here.
* MongoDB ObjectIds are `OId`: either 12 bytes parsed from a client string
  (`OId.parsed`) or a server-generated id (`OId.gen n`, drawn from the
  store's `nextGen` counter — real generated ObjectIds are unique, which
  the `gen` constructor with a fresh counter reflects).
* A document is its generated `_id` plus an association list of the
  remaining fields, in insertion order (MongoDB preserves field order).
  Field keys are flat strings; the documents this application writes
  contain no dotted paths or `$`-operator keys.
* Each collection is the list of its documents in insertion order;
  `findOne`/`updateOne`/`deleteOne` act on the first match in that order,
  exactly as MongoDB does for an unsorted query.
-/

namespace EcoTrack

/-- BSON/JS values as used by this server. -/
inductive Value where
  | vNull : Value
  | vUndef : Value
  | vBool : Bool → Value
  | vInt : Int → Value
  | vNaN : Value
  | vStr : String → Value
  | vDate : Nat → Value
  | vDateStr : Nat → Value
  deriving DecidableEq, Repr

/-- MongoDB ObjectId: 12 bytes parsed from a client-supplied string, or a
server-generated fresh id. -/
inductive OId where
  | parsed : List Nat → OId
  | gen : Nat → OId
  deriving DecidableEq, Repr

/-- Value of a hexadecimal digit, case-insensitive. -/
def hexVal (c : Char) : Option Nat :=
  if '0' ≤ c ∧ c ≤ '9' then some (c.toNat - '0'.toNat)
  else if 'a' ≤ c ∧ c ≤ 'f' then some (c.toNat - 'a'.toNat + 10)
  else if 'A' ≤ c ∧ c ≤ 'F' then some (c.toNat - 'A'.toNat + 10)
  else none

/-- Decode a list of hex digits, two per byte. -/
def hexBytes : List Char → Option (List Nat)
  | [] => some []
  | [_] => none
  | c₁ :: c₂ :: rest => do
      let h₁ ← hexVal c₁
      let h₂ ← hexVal c₂
      let bs ← hexBytes rest
      pure ((h₁ * 16 + h₂) :: bs)

/-- `new ObjectId(s)` / `ObjectId.isValid(s)`: a 24-character hex string
decodes to its 12 bytes; a 12-character string is taken as 12 raw bytes;
anything else is invalid (the constructor throws). -/
def parseOId (s : String) : Option OId :=
  if s.length = 24 then (hexBytes s.toList).map OId.parsed
  else if s.length = 12 then some (OId.parsed (s.toList.map Char.toNat))
  else none

/-- `ObjectId.isValid` from the driver. -/
def isValidOId (s : String) : Bool := (parseOId s).isSome

/-- JavaScript truthiness of a value (`participants || 0`, `if (search)`). -/
def jsTruthy : Value → Bool
  | .vNull => false
  | .vUndef => false
  | .vBool b => b
  | .vInt n => n ≠ 0
  | .vNaN => false
  | .vStr s => s ≠ ""
  | .vDate _ => true
  | .vDateStr _ => true

/-- Driver serialization of a value written to the database with the default
`ignoreUndefined:false`: JavaScript `undefined` becomes BSON `null`. -/
def normVal : Value → Value
  | .vUndef => .vNull
  | v => v

/-- Decimal digits at the front of a string, as JS `parseInt` consumes them. -/
def takeDigits : List Char → Option Nat → Option Nat
  | [], acc => acc
  | c :: rest, acc =>
      if '0' ≤ c ∧ c ≤ '9' then
        takeDigits rest (some ((acc.getD 0) * 10 + (c.toNat - '0'.toNat)))
      else acc

/-- Hexadecimal digits at the front of a string, stopping at the first
character that is not a hex digit (as JS `parseInt` consumes them);
`none` when no digit is consumed. -/
def takeHexDigits : List Char → Option Nat → Option Nat
  | [], acc => acc
  | c :: rest, acc =>
      match hexVal c with
      | some h => takeHexDigits rest (some ((acc.getD 0) * 16 + h))
      | none => acc

/-- JS `parseInt` on a string (radix unspecified): skip leading whitespace,
optional sign, then leading decimal digits (a `0x`/`0X` prefix switches to
hexadecimal), stopping at the first non-digit; `NaN` when no digit is
consumed. -/
def parseIntStr (s : String) : Value :=
  let cs := s.toList.dropWhile (fun c => c = ' ' ∨ c = '\t' ∨ c = '\n' ∨ c = '\r')
  let (neg, cs) : Bool × List Char :=
    match cs with
    | '-' :: rest => (true, rest)
    | '+' :: rest => (false, rest)
    | _ => (false, cs)
  let digits : Option Nat :=
    match cs with
    | '0' :: 'x' :: rest => takeHexDigits rest none
    | '0' :: 'X' :: rest => takeHexDigits rest none
    | _ => takeDigits cs none
  match digits with
  | none => .vNaN
  | some n => .vInt (if neg then -(n : Int) else (n : Int))

/-- JS `parseInt(v)` for the body values this server can receive: the
argument is converted to a string first, so numbers round-trip, `null`,
`undefined`, booleans and `NaN` parse to `NaN`, and a `Date` object's
string form (weekday-first) parses to `NaN`.  (`vDateStr` never occurs in
a client request body; it is a server-stamped value.) -/
def parseIntJS : Value → Value
  | .vStr s => parseIntStr s
  | .vInt n => .vInt n
  | _ => .vNaN

/-- Field lookup in a document's association list (`doc.field`): the first
binding of the key, if any. -/
def getField : List (String × Value) → String → Option Value
  | [], _ => none
  | (k', v) :: rest, k => if k = k' then some v else getField rest k

/-- `$set` of a single field: replace in place, or append when absent
(MongoDB keeps existing field order and appends new fields). -/
def setField : List (String × Value) → String → Value → List (String × Value)
  | [], k, v => [(k, v)]
  | (k', v') :: rest, k, v =>
      if k' = k then (k, v) :: rest else (k', v') :: setField rest k v

/-- A stored challenge document: generated `_id` plus its fields. -/
structure ChallengeDoc where
  oid : OId
  fields : List (String × Value)
  deriving DecidableEq, Repr

/-- A stored user-challenge link document (collection `userChallenges`). -/
structure UserChallengeDoc where
  oid : OId
  userId : Value
  challengeId : OId
  status : Value
  progress : Value
  joinDate : Value
  updateDate : Option Value
  deriving DecidableEq, Repr

/-- The database state the routes act on. -/
structure Store where
  challenges : List ChallengeDoc
  userChallenges : List UserChallengeDoc
  nextGen : Nat
  deriving DecidableEq, Repr

/-- An HTTP response envelope as this server builds it: status code, the
`success` flag when the handler sends one, optional `message`, optional
bare `error` field (only the invalid-id branch of `GET /challenges/:id`
sends `{error: "Invalid ID"}` without `success`). -/
structure Resp where
  status : Nat
  success : Option Bool
  message : Option String
  errField : Option String
  deriving DecidableEq, Repr

/-- Request-body field access by destructuring: an absent key reads as
JavaScript `undefined`. -/
def getBody (body : List (String × Value)) (k : String) : Value :=
  Option.getD (getField body k) Value.vUndef

/-! ## The search filter of `GET /challenges`

The handler builds `{title: {$regex: search, $options: "i"}}`: the raw
search string is interpreted as a regular expression, case-insensitively,
unanchored.  The matcher below models the regex fragment in which every
pattern character is either a literal or the wildcard `.` (which matches
any character except a line terminator).  Search strings containing other
regex metacharacters are outside the modelled fragment. -/

/-- Case-insensitive character comparison (the `i` option). -/
def ciEq (a b : Char) : Bool := a.toLower = b.toLower

/-- JavaScript line terminators, which `.` does not match. -/
def isLineTerm (c : Char) : Bool :=
  c = '\n' ∨ c = '\r' ∨ c = ' ' ∨ c = ' '

/-- Does the pattern match the text starting at its first character? -/
def patMatchAt : List Char → List Char → Bool
  | [], _ => true
  | _ :: _, [] => false
  | p :: ps, c :: cs => ((p = '.' && !isLineTerm c) || ciEq p c) && patMatchAt ps cs

/-- Unanchored regex search: the pattern matches at some position. -/
def regexSearchCI : List Char → List Char → Bool
  | pat, [] => patMatchAt pat []
  | pat, text@(_ :: rest) => patMatchAt pat text || regexSearchCI pat rest

/-- `$regex` applied to the `title` field of a document: a regex query on a
non-string field matches nothing. -/
def titleRegexMatch (fields : List (String × Value)) (s : String) : Bool :=
  match getField fields "title" with
  | some (Value.vStr t) => regexSearchCI s.toList t.toList
  | _ => false

/-! ## Route handlers / data-access operations, one per endpoint -/

/-- `GET /challenges?search=`: when the `search` query parameter is truthy
(present and non-empty) filter by case-insensitive `$regex` on `title`,
otherwise return every challenge, in storage order. -/
def listChallenges (store : Store) (search : Option String) : List ChallengeDoc :=
  match search with
  | some s =>
      if s ≠ "" then store.challenges.filter (fun d => titleRegexMatch d.fields s)
      else store.challenges
  | none => store.challenges

/-- `findOne({_id: cid})` on the challenges collection: first match in
storage order. -/
def findChallenge (store : Store) (cid : OId) : Option ChallengeDoc :=
  store.challenges.find? (fun d => d.oid = cid)

/-- `GET /challenges/:id`: rejects structurally invalid ids with 400
`{error: "Invalid ID"}`, answers 404 when no challenge has the id, 200
otherwise. -/
def getChallengeRoute (store : Store) (idStr : String) : Resp :=
  match parseOId idStr with
  | none => { status := 400, success := none, message := none, errField := some "Invalid ID" }
  | some cid =>
      match findChallenge store cid with
      | none => { status := 404, success := some false, message := some "Challenge not found", errField := none }
      | some _ => { status := 200, success := some true, message := none, errField := none }

/-- `deleteOne({_id: cid})` and the surrounding handler logic of
`DELETE /delete/challenge/:id`: remove the first match; `deletedCount = 0`
answers 404. -/
def deleteChallenge (store : Store) (cid : OId) : Store × Resp :=
  if (store.challenges.find? (fun d => d.oid = cid)).isSome then
    ({ store with challenges := store.challenges.eraseP (fun d => d.oid = cid) },
     { status := 200, success := some true, message := some "Challenge deleted successfully", errField := none })
  else
    (store, { status := 404, success := some false, message := some "Challenge not found", errField := none })

/-- `DELETE /delete/challenge/:id`: the handler calls `new ObjectId(id)`
with no validity check, so a malformed id throws a `BSONError`, lands in
the `catch`, and produces a 500 (the thrown message is abstracted to
"BSONError"). -/
def deleteChallengeRoute (store : Store) (idStr : String) : Store × Resp :=
  match parseOId idStr with
  | none => (store, { status := 500, success := some false, message := some "Failed to delete challenge", errField := some "BSONError" })
  | some cid => deleteChallenge store cid

/-- The document `POST /challenges` builds from the request body: the
destructured fields in source order, `duration` through `parseInt`,
`participants` defaulted with `participants || 0`, `createdDate` stamped
with `new Date().toISOString()`, `status` set to `"active"`. -/
def newChallengeFields (body : List (String × Value)) (now : Nat) : List (String × Value) :=
  [("title", normVal (getBody body "title")),
   ("category", normVal (getBody body "category")),
   ("description", normVal (getBody body "description")),
   ("duration", normVal (parseIntJS (getBody body "duration"))),
   ("target", normVal (getBody body "target")),
   ("participants", normVal (if jsTruthy (getBody body "participants") then getBody body "participants" else Value.vInt 0)),
   ("impactMetric", normVal (getBody body "impactMetric")),
   ("createdBy", normVal (getBody body "createdBy")),
   ("startDate", normVal (getBody body "startDate")),
   ("endDate", normVal (getBody body "endDate")),
   ("imageUrl", normVal (getBody body "imageUrl")),
   ("createdDate", Value.vDateStr now),
   ("status", Value.vStr "active")]

/-- `POST /challenges`: insert the new document with a fresh generated
`_id` and return that `insertedId`. -/
def createChallenge (store : Store) (body : List (String × Value)) (now : Nat) : Store × OId :=
  let iid := OId.gen store.nextGen
  ({ store with
      challenges := store.challenges ++ [{ oid := iid, fields := newChallengeFields body now }],
      nextGen := store.nextGen + 1 },
   iid)

/-- `$inc: {participants: 1}` on one document's fields: creates the field
at 1 when absent, adds 1 to a stored number (`NaN` stays `NaN`), and is a
server error (`none`) on a stored non-numeric value such as `null`, a
string or a date. -/
def incParticipants (fields : List (String × Value)) : Option (List (String × Value)) :=
  match getField fields "participants" with
  | none => some (setField fields "participants" (Value.vInt 1))
  | some (Value.vInt n) => some (setField fields "participants" (Value.vInt (n + 1)))
  | some Value.vNaN => some (setField fields "participants" Value.vNaN)
  | some _ => none

/-- `updateOne({_id: cid}, {$inc: {participants: 1}})`: update the first
match; matching zero documents is not an error. -/
def incFirstChallenge : List ChallengeDoc → OId → Option (List ChallengeDoc)
  | [], _ => some []
  | d :: rest, cid =>
      if d.oid = cid then
        (incParticipants d.fields).map (fun fs => { d with fields := fs } :: rest)
      else
        (incFirstChallenge rest cid).map (fun ds => d :: ds)

/-- `findOne({userId, challengeId})` on the userChallenges collection (the
duplicate-join check). -/
def findLink (store : Store) (uid : Value) (cid : OId) : Option UserChallengeDoc :=
  store.userChallenges.find? (fun l => decide (l.userId = uid ∧ l.challengeId = cid))

/-- `POST /challenges/join/:id` after `new ObjectId(id)` succeeded: check
for an existing link for (userId, challengeId); if present answer 400
"Already joined"; otherwise insert the link (status "Not Started",
progress 0, joinDate now) and then `$inc` the challenge's participants.
The two writes are sequential: a failing `$inc` (500) leaves the link
inserted. -/
def joinChallenge (store : Store) (cid : OId) (body : List (String × Value)) (now : Nat) : Store × Resp :=
  let uid := normVal (getBody body "userId")
  match findLink store uid cid with
  | some _ =>
      (store, { status := 400, success := some false, message := some "Already joined", errField := none })
  | none =>
      let link : UserChallengeDoc :=
        { oid := OId.gen store.nextGen, userId := uid, challengeId := cid,
          status := Value.vStr "Not Started", progress := Value.vInt 0,
          joinDate := Value.vDate now, updateDate := none }
      let store₁ := { store with
        userChallenges := store.userChallenges ++ [link],
        nextGen := store.nextGen + 1 }
      match incFirstChallenge store₁.challenges cid with
      | some chs =>
          ({ store₁ with challenges := chs },
           { status := 200, success := some true, message := some "Joined challenge successfully", errField := none })
      | none =>
          (store₁, { status := 500, success := some false, message := some "Server error", errField := some "MongoServerError" })

/-- `$set` of a whole update document: apply `setField` left to right,
serializing `undefined` values as `null`. -/
def applySet (fields : List (String × Value)) (updateData : List (String × Value)) : List (String × Value) :=
  updateData.foldl (fun fs kv => setField fs kv.1 (normVal kv.2)) fields

/-- Replace the fields of the first challenge document with the given id. -/
def updateFirstChallenge : List ChallengeDoc → OId → (List (String × Value) → List (String × Value)) → List ChallengeDoc
  | [], _, _ => []
  | d :: rest, cid, f =>
      if d.oid = cid then { d with fields := f d.fields } :: rest
      else d :: updateFirstChallenge rest cid f

/-- `PATCH /challenges/:id` after `new ObjectId(id)` succeeded: stamp
`updatedOn` into the request body, `$set` the result on the first matching
document; zero matches answers 404.  A body carrying an `_id` key makes
the server reject the update of a matched document (the `_id` field is
immutable and a request body cannot hold the stored `ObjectId` value), a
500. -/
def updateChallenge (store : Store) (cid : OId) (body : List (String × Value)) (now : Nat) : Store × Resp :=
  let updateData := setField body "updatedOn" (Value.vDate now)
  match findChallenge store cid with
  | none =>
      (store, { status := 404, success := some false, message := some "Challenge not found", errField := none })
  | some _ =>
      if (getField updateData "_id").isSome then
        (store, { status := 500, success := some false, message := some "Failed to update challenge", errField := some "MongoServerError" })
      else
        ({ store with challenges := updateFirstChallenge store.challenges cid (fun fs => applySet fs updateData) },
         { status := 200, success := some true, message := some "Challenge updated successfully", errField := none })

/-- Replace status/progress/updateDate on the first link matching
`{userId, _id}`, as the `$set` of `PATCH /user-challenges/:userId/:challengeId`
does: both fields are overwritten with the body values (absent body fields
are `undefined`, serialized as `null`), and `updateDate` is stamped. -/
def updateFirstLink : List UserChallengeDoc → String → OId → List (String × Value) → Nat → List UserChallengeDoc
  | [], _, _, _, _ => []
  | l :: rest, uid, lid, body, now =>
      if l.userId = Value.vStr uid ∧ l.oid = lid then
        { l with status := normVal (getBody body "status"),
                 progress := normVal (getBody body "progress"),
                 updateDate := some (Value.vDate now) } :: rest
      else l :: updateFirstLink rest uid lid body now

/-- `findOne`-style first match of `{userId, _id}` on the userChallenges
collection (how the progress update selects its link). -/
def findUserChallenge (store : Store) (uidStr : String) (lid : OId) : Option UserChallengeDoc :=
  store.userChallenges.find? (fun l => decide (l.userId = Value.vStr uidStr ∧ l.oid = lid))

/-- `PATCH /user-challenges/:userId/:challengeId` after
`new ObjectId(challengeId)` succeeded: `updateOne({userId, _id}, {$set:
{status, progress, updateDate: now}})`; zero matches answers 404. -/
def updateUserChallengeProgress (store : Store) (uidStr : String) (lid : OId) (body : List (String × Value)) (now : Nat) : Store × Resp :=
  match findUserChallenge store uidStr lid with
  | none =>
      (store, { status := 404, success := some false, message := some "User challenge not found", errField := none })
  | some _ =>
      ({ store with userChallenges := updateFirstLink store.userChallenges uidStr lid body now },
       { status := 200, success := some true, message := some "Progress updated successfully", errField := none })

/-- The payload of `GET /api/challenges/stats`. -/
structure Stats where
  totalParticipants : Int
  totalChallenges : Nat
  weeklyImpact : Nat
  deriving DecidableEq, Repr

/-- One document's contribution to the `$group`/`$sum` of
`{$ifNull: ["$participants", 0]}`: a stored number contributes itself,
a missing or `null` field contributes the `$ifNull` default 0, and `$sum`
ignores other non-numeric values. -/
def partContribution (fields : List (String × Value)) : Int :=
  match getField fields "participants" with
  | some (Value.vInt n) => n
  | _ => 0

/-- `GET /api/challenges/stats`: `countDocuments()`, the aggregation sum
(the handler's `aggResult[0]?.totalParticipants || 0` yields 0 both for an
empty collection and for a zero sum, so it equals the plain sum), and the
hard-coded `weeklyImpact: 20`. -/
def getChallengeStats (store : Store) : Stats :=
  { totalParticipants := (store.challenges.map (fun d => partContribution d.fields)).sum,
    totalChallenges := store.challenges.length,
    weeklyImpact := 20 }

/-! ## Spec-side definitions

These follow the specification's words, for comparison against the
definitions above, which follow the source. -/

/-- The regular-expression metacharacters of JavaScript. -/
def regexMeta (c : Char) : Bool :=
  c ∈ ['.', '^', '$', '*', '+', '?', '(', ')', '[', ']', '\x7b', '\x7d', '|', '\\']

/-- A search string free of regex metacharacters: on these, a regex match
and a literal substring match can be compared. -/
def noMeta (s : String) : Bool := s.toList.all (fun c => !regexMeta c)

/-- Case-insensitive "is a prefix of". -/
def prefixCI : List Char → List Char → Bool
  | [], _ => true
  | _ :: _, [] => false
  | p :: ps, c :: cs => ciEq p c && prefixCI ps cs

/-- Case-insensitive "occurs as a contiguous substring of". -/
def containsCI : List Char → List Char → Bool
  | pat, [] => prefixCI pat []
  | pat, text@(_ :: rest) => prefixCI pat text || containsCI pat rest

/-- Modelled from the spec: "records whose title contains s as a
case-insensitive substring" (a record without a string title contains no
substring). -/
def specTitleContains (fields : List (String × Value)) (s : String) : Bool :=
  match getField fields "title" with
  | some (Value.vStr t) => containsCI s.toList t.toList
  | _ => false

/-- Modelled from the spec: a challenge's participants value as the stats
sum counts it, "treating missing values as 0" (the spec's own example
counts `null` as 0 as well). -/
def specPartValue : Option Value → Int
  | some (Value.vInt n) => n
  | _ => 0

/-- Participants fields the stats claim speaks about: a stored integer, a
stored `null`, or no field at all. -/
def participantsWellTyped (fields : List (String × Value)) : Bool :=
  match getField fields "participants" with
  | some (Value.vInt _) => true
  | some Value.vNull => true
  | none => true
  | some _ => false

/-- The (id, participants-field) view of a challenges collection, used to
state which operations may change a participants counter. -/
def partsOf (l : List ChallengeDoc) : List (OId × Option Value) :=
  l.map (fun d => (d.oid, getField d.fields "participants"))

/-- "Incremented by 1": an integer counter grows by one, a missing counter
is created at 1 (`$inc` treats a missing field as 0). -/
def incRel (o o' : Option Value) : Prop :=
  (∃ n : Int, o = some (Value.vInt n) ∧ o' = some (Value.vInt (n + 1))) ∨
  (o = none ∧ o' = some (Value.vInt 1))

/-! ## Concrete instances used in witnesses and counterexamples -/

/-- A client-supplied ObjectId (12 bytes). -/
def exOid : OId := OId.parsed [0, 1, 2, 3, 4, 5, 6, 7, 8, 9, 10, 11]

/-- A second, distinct ObjectId. -/
def exOid2 : OId := OId.parsed [9, 9, 9, 9, 9, 9, 9, 9, 9, 9, 9, 9]

/-- A stored challenge with 3 participants. -/
def exChallenge : ChallengeDoc :=
  { oid := exOid,
    fields := [("title", Value.vStr "Plant a Tree"), ("participants", Value.vInt 3)] }

/-- The empty database. -/
def emptyStore : Store := { challenges := [], userChallenges := [], nextGen := 0 }

/-- A database holding one challenge. -/
def storeOne : Store := { challenges := [exChallenge], userChallenges := [], nextGen := 5 }

/-- A link recording that user "u1" joined `exChallenge`. -/
def exLink : UserChallengeDoc :=
  { oid := OId.gen 5, userId := Value.vStr "u1", challengeId := exOid,
    status := Value.vStr "Not Started", progress := Value.vInt 0,
    joinDate := Value.vDate 1, updateDate := none }

/-- A database where user "u1" already joined the one challenge. -/
def storeJoined : Store :=
  { challenges := [exChallenge], userChallenges := [exLink], nextGen := 6 }

/-- The spec's stats example: participants 3, null, 5. -/
def statsStore : Store :=
  { challenges :=
      [{ oid := OId.gen 0, fields := [("title", Value.vStr "A"), ("participants", Value.vInt 3)] },
       { oid := OId.gen 1, fields := [("title", Value.vStr "B"), ("participants", Value.vNull)] },
       { oid := OId.gen 2, fields := [("title", Value.vStr "C")] },
       { oid := OId.gen 3, fields := [("title", Value.vStr "D"), ("participants", Value.vInt 5)] }],
    userChallenges := [], nextGen := 4 }

/-- The body `{userId: "u1"}` of a join request. -/
def bodyU1 : List (String × Value) := [("userId", Value.vStr "u1")]

/-- A create-challenge body that also supplies a participants count. -/
def bodyCreate : List (String × Value) :=
  [("title", Value.vStr "Plant a Tree"), ("category", Value.vStr "nature"),
   ("description", Value.vStr "plant"), ("duration", Value.vStr "30"),
   ("target", Value.vStr "30 trees"), ("participants", Value.vInt 5),
   ("impactMetric", Value.vStr "trees"), ("createdBy", Value.vStr "u1"),
   ("startDate", Value.vStr "2025-01-01"), ("endDate", Value.vStr "2025-01-31"),
   ("imageUrl", Value.vStr "http://img")]

/-- A store whose only challenge is titled "abc" (for the regex-vs-substring
comparison). -/
def regexStore : Store :=
  { challenges := [{ oid := OId.gen 0, fields := [("title", Value.vStr "abc")] }],
    userChallenges := [], nextGen := 1 }

/-- The body `{status: "completed"}` of a patch request. -/
def bodyStatusCompleted : List (String × Value) := [("status", Value.vStr "completed")]

/-- An update-document key the flat field model covers exactly: not a
dotted path and not a `$`-operator name. -/
def plainKey (k : String) : Bool :=
  (match k.toList with
   | [] => true
   | c :: _ => c ≠ '$') && !(k.toList.contains '.')

/-- How one step of an operation may act on one challenge's participants
counter: same document id, and the counter either untouched or — only on
the document the join targeted — incremented by 1. -/
def participantsStep (cid : OId) (d d' : ChallengeDoc) : Prop :=
  d'.oid = d.oid ∧
  (getField d'.fields "participants" = getField d.fields "participants" ∨
   (d.oid = cid ∧ incRel (getField d.fields "participants") (getField d'.fields "participants")))

/-! ## Helper lemmas -/

lemma getField_setField_self (fs : List (String × Value)) (k : String) (v : Value) :
    getField (setField fs k v) k = some v := by
  induction fs with
  | nil => simp [setField, getField]
  | cons kv rest ih =>
      obtain ⟨k', v'⟩ := kv
      by_cases h : k' = k
      · subst h; simp [setField, getField]
      · simp [setField, getField, h, Ne.symm h, ih]

lemma getField_setField_ne (fs : List (String × Value)) (k k' : String) (v : Value)
    (h : k' ≠ k) : getField (setField fs k v) k' = getField fs k' := by
  induction fs with
  | nil => simp [setField, getField, h]
  | cons kv rest ih =>
      obtain ⟨k₁, v₁⟩ := kv
      by_cases h₁ : k₁ = k
      · subst h₁; simp [setField, getField, h]
      · by_cases h₂ : k' = k₁ <;> simp [setField, getField, h₁, h₂, ih]

lemma notMem_keys_setField (fs : List (String × Value)) (k k' : String) (v : Value)
    (h1 : k' ∉ fs.map Prod.fst) (h2 : k' ≠ k) :
    k' ∉ (setField fs k v).map Prod.fst := by
  induction fs with
  | nil => simp [setField, h2]
  | cons kv rest ih =>
      obtain ⟨k₁, v₁⟩ := kv
      simp only [List.map_cons, List.mem_cons, not_or] at h1
      by_cases h₁ : k₁ = k
      · simp [setField, h₁, h2, h1.2]
      · simp only [setField, if_neg h₁, List.map_cons, List.mem_cons, not_or]
        exact ⟨h1.1, ih h1.2⟩

lemma getField_applySet_notMem (ud : List (String × Value)) (fs : List (String × Value))
    (k : String) (h : k ∉ ud.map Prod.fst) :
    getField (applySet fs ud) k = getField fs k := by
  induction ud generalizing fs with
  | nil => simp [applySet]
  | cons kv rest ih =>
      obtain ⟨k₁, v₁⟩ := kv
      simp only [List.map_cons, List.mem_cons, not_or] at h
      show getField (applySet (setField fs k₁ (normVal v₁)) rest) k = getField fs k
      rw [ih _ h.2, getField_setField_ne _ _ _ _ h.1]

lemma getField_applySet_mem (ud : List (String × Value)) (fs : List (String × Value))
    (k : String) (v : Value) (hnd : (ud.map Prod.fst).Nodup) (h : (k, v) ∈ ud) :
    getField (applySet fs ud) k = some (normVal v) := by
  induction ud generalizing fs with
  | nil => simp at h
  | cons kv rest ih =>
      obtain ⟨k₁, v₁⟩ := kv
      simp only [List.map_cons, List.nodup_cons] at hnd
      rcases List.mem_cons.mp h with h' | h'
      · injection h' with hk hv
        subst hk; subst hv
        show getField (applySet (setField fs k (normVal v)) rest) k = some (normVal v)
        rw [getField_applySet_notMem _ _ _ hnd.1, getField_setField_self]
      · show getField (applySet (setField fs k₁ (normVal v₁)) rest) k = some (normVal v)
        exact ih (setField fs k₁ (normVal v₁)) hnd.2 h'

lemma findFirst_append_of_none {α : Type} (p : α → Bool) (l₁ l₂ : List α)
    (h : l₁.find? p = none) : (l₁ ++ l₂).find? p = l₂.find? p := by
  rw [List.find?_append, h, Option.none_or]

lemma findFirst_updateFirstChallenge (l : List ChallengeDoc) (cid : OId)
    (f : List (String × Value) → List (String × Value)) :
    (updateFirstChallenge l cid f).find? (fun d => d.oid = cid) =
      (l.find? (fun d => d.oid = cid)).map (fun d => { d with fields := f d.fields }) := by
  induction l with
  | nil => simp [updateFirstChallenge]
  | cons d rest ih =>
      by_cases h : d.oid = cid
      · simp [updateFirstChallenge, h, List.find?_cons]
      · simp [updateFirstChallenge, h, List.find?_cons, ih]

lemma incFirstChallenge_of_find_none (l : List ChallengeDoc) (cid : OId)
    (h : l.find? (fun d => d.oid = cid) = none) : incFirstChallenge l cid = some l := by
  induction l with
  | nil => simp [incFirstChallenge]
  | cons d rest ih =>
      by_cases hd : d.oid = cid
      · rw [List.find?_cons_of_pos _ (by simp [hd])] at h
        exact absurd h (by simp)
      · rw [List.find?_cons_of_neg _ (by simp [hd])] at h
        simp [incFirstChallenge, hd, ih h]

lemma incFirstChallenge_of_find_some (l : List ChallengeDoc) (cid : OId)
    (d : ChallengeDoc) (fs' : List (String × Value))
    (h : l.find? (fun d => d.oid = cid) = some d)
    (hinc : incParticipants d.fields = some fs') :
    ∃ l', incFirstChallenge l cid = some l' ∧
      l'.find? (fun x => x.oid = cid) = some { d with fields := fs' } := by
  induction l with
  | nil => simp at h
  | cons d₀ rest ih =>
      by_cases hd : d₀.oid = cid
      · rw [List.find?_cons_of_pos _ (by simp [hd])] at h
        obtain rfl : d₀ = d := Option.some.inj h
        refine ⟨{ d₀ with fields := fs' } :: rest, ?_, ?_⟩
        · simp [incFirstChallenge, hd, hinc]
        · exact List.find?_cons_of_pos _ (by simp [hd])
      · rw [List.find?_cons_of_neg _ (by simp [hd])] at h
        obtain ⟨l', hl', hfind⟩ := ih h
        exact ⟨d₀ :: l', by simp [incFirstChallenge, hd, hl'], by
          rw [List.find?_cons_of_neg _ (by simp [hd])]; exact hfind⟩

lemma findFirst_eraseP_of_nodup (l : List ChallengeDoc) (cid : OId)
    (hnd : (l.map (fun x => x.oid)).Nodup) :
    (l.eraseP (fun d => d.oid = cid)).find? (fun d => d.oid = cid) = none := by
  induction l with
  | nil => simp
  | cons d rest ih =>
      simp only [List.map_cons, List.nodup_cons] at hnd
      by_cases hd : d.oid = cid
      · rw [List.eraseP_cons_of_pos (by simp [hd])]
        rw [List.find?_eq_none]
        intro x hx
        simp only [decide_eq_true_eq]
        intro hxe
        exact hnd.1 (by
          have : x.oid ∈ rest.map (fun y => y.oid) := List.mem_map_of_mem _ hx
          rwa [hxe, ← hd] at this)
      · rw [List.eraseP_cons_of_neg (by simp [hd])]
        rw [List.find?_cons_of_neg _ (by simp [hd])]
        exact ih hnd.2

lemma findFirst_updateFirstLink (l : List UserChallengeDoc) (uid : String) (lid : OId)
    (body : List (String × Value)) (now : Nat) :
    (updateFirstLink l uid lid body now).find?
        (fun x => decide (x.userId = Value.vStr uid ∧ x.oid = lid)) =
      (l.find? (fun x => decide (x.userId = Value.vStr uid ∧ x.oid = lid))).map
        (fun x => { x with status := normVal (getBody body "status"),
                           progress := normVal (getBody body "progress"),
                           updateDate := some (Value.vDate now) }) := by
  induction l with
  | nil => simp [updateFirstLink]
  | cons x rest ih =>
      by_cases h : x.userId = Value.vStr uid ∧ x.oid = lid
      · rw [updateFirstLink, if_pos h]
        rw [List.find?_cons_of_pos _ (by simpa using h)]
        rw [List.find?_cons_of_pos _ (by simpa using h)]
        rfl
      · rw [updateFirstLink, if_neg h]
        rw [List.find?_cons_of_neg _ (by simpa using h)]
        rw [List.find?_cons_of_neg _ (by simpa using h)]
        exact ih

lemma patMatchAt_noMeta (p c : List Char) (hp : ∀ x ∈ p, regexMeta x = false) :
    patMatchAt p c = prefixCI p c := by
  induction p generalizing c with
  | nil => cases c <;> rfl
  | cons x ps ih =>
      have hx : x ≠ '.' := by
        intro h
        have hm := hp x (List.mem_cons_self _ _)
        rw [h] at hm
        simp [regexMeta] at hm
      cases c with
      | nil => rfl
      | cons y cs =>
          have hrec := ih cs (fun z hz => hp z (List.mem_cons_of_mem _ hz))
          simp [patMatchAt, prefixCI, hx, hrec]

lemma regexSearchCI_noMeta (p h : List Char) (hp : ∀ x ∈ p, regexMeta x = false) :
    regexSearchCI p h = containsCI p h := by
  induction h with
  | nil => exact patMatchAt_noMeta p [] hp
  | cons y cs ih =>
      simp only [regexSearchCI, containsCI, patMatchAt_noMeta _ _ hp, ih]

lemma mem_setField_self (fs : List (String × Value)) (k : String) (v : Value) :
    (k, v) ∈ setField fs k v := by
  induction fs with
  | nil => simp [setField]
  | cons kv rest ih =>
      obtain ⟨k₁, v₁⟩ := kv
      by_cases h : k₁ = k
      · simp [setField, h]
      · simp only [setField, if_neg h, List.mem_cons]
        exact Or.inr ih

lemma mem_setField_of_mem (fs : List (String × Value)) (k₀ : String) (v₀ : Value)
    (k : String) (v : Value) (hm : (k, v) ∈ fs) (hne : k ≠ k₀) :
    (k, v) ∈ setField fs k₀ v₀ := by
  induction fs with
  | nil => simp at hm
  | cons kv rest ih =>
      obtain ⟨k₁, v₁⟩ := kv
      rcases List.mem_cons.mp hm with h' | h'
      · injection h' with hk hv
        subst hk; subst hv
        simp only [setField, if_neg hne, List.mem_cons]
        exact Or.inl trivial
      · by_cases h₁ : k₁ = k₀
        · simp only [setField, if_pos h₁, List.mem_cons]
          exact Or.inr h'
        · simp only [setField, if_neg h₁, List.mem_cons]
          exact Or.inr (ih h')

lemma nodup_keys_setField (fs : List (String × Value)) (k : String) (v : Value)
    (h : (fs.map Prod.fst).Nodup) : ((setField fs k v).map Prod.fst).Nodup := by
  induction fs with
  | nil => simp [setField]
  | cons kv rest ih =>
      obtain ⟨k₁, v₁⟩ := kv
      simp only [List.map_cons, List.nodup_cons] at h
      by_cases h₁ : k₁ = k
      · rw [show setField ((k₁, v₁) :: rest) k v = (k, v) :: rest from by simp [setField, h₁]]
        simp only [List.map_cons, List.nodup_cons]
        exact ⟨h₁ ▸ h.1, h.2⟩
      · simp only [setField, if_neg h₁, List.map_cons, List.nodup_cons]
        exact ⟨notMem_keys_setField rest k k₁ v h.1 h₁, ih h.2⟩

lemma partsOf_updateFirstChallenge (l : List ChallengeDoc) (cid : OId)
    (f : List (String × Value) → List (String × Value))
    (hf : ∀ fs, getField (f fs) "participants" = getField fs "participants") :
    partsOf (updateFirstChallenge l cid f) = partsOf l := by
  induction l with
  | nil => rfl
  | cons d rest ih =>
      by_cases h : d.oid = cid
      · simp [updateFirstChallenge, h, partsOf, hf]
      · simp only [updateFirstChallenge, if_neg h, partsOf, List.map_cons]
        exact congrArg _ ih

lemma forall₂_incFirstChallenge (l : List ChallengeDoc) (cid : OId) (l' : List ChallengeDoc)
    (h : incFirstChallenge l cid = some l') :
    List.Forall₂ (participantsStep cid) l l' := by
  induction l generalizing l' with
  | nil =>
      simp [incFirstChallenge] at h
      subst h
      exact List.Forall₂.nil
  | cons d rest ih =>
      unfold incFirstChallenge at h
      by_cases hd : d.oid = cid
      · rw [if_pos hd] at h
        cases hip : incParticipants d.fields with
        | none => rw [hip] at h; simp at h
        | some fs' =>
            rw [hip] at h
            simp only [Option.map_some'] at h
            obtain rfl := Option.some.inj h
            refine List.Forall₂.cons ⟨rfl, ?_⟩
              (List.forall₂_same.mpr (fun x _ => ⟨rfl, Or.inl rfl⟩))
            unfold incParticipants at hip
            cases hgf : getField d.fields "participants" with
            | none =>
                rw [hgf] at hip
                obtain rfl := Option.some.inj hip
                exact Or.inr ⟨hd, Or.inr ⟨rfl, by rw [getField_setField_self]⟩⟩
            | some v =>
                rw [hgf] at hip
                cases v with
                | vInt n =>
                    obtain rfl := Option.some.inj hip
                    exact Or.inr ⟨hd, Or.inl ⟨n, rfl, by rw [getField_setField_self]⟩⟩
                | vNaN =>
                    obtain rfl := Option.some.inj hip
                    exact Or.inl (by rw [getField_setField_self])
                | vNull => exact Option.noConfusion hip
                | vUndef => exact Option.noConfusion hip
                | vBool b => exact Option.noConfusion hip
                | vStr s => exact Option.noConfusion hip
                | vDate t => exact Option.noConfusion hip
                | vDateStr t => exact Option.noConfusion hip
      · rw [if_neg hd] at h
        cases hrec : incFirstChallenge rest cid with
        | none => rw [hrec] at h; simp at h
        | some rest' =>
            rw [hrec] at h
            simp only [Option.map_some'] at h
            obtain rfl := Option.some.inj h
            exact List.Forall₂.cons ⟨rfl, Or.inl rfl⟩ (ih rest' hrec)

/-! ## The claims -/

/-- C5: `getChallengeStats` returns the count of all challenge records, the
sum of the participants fields treating missing (and null) values as 0, and
the constant 20 as weeklyImpact. -/
theorem c5_stats_confirmed (store : Store)
    (_hwt : ∀ d ∈ store.challenges, participantsWellTyped d.fields = true) :
    getChallengeStats store =
      { totalParticipants :=
          (store.challenges.map (fun d => specPartValue (getField d.fields "participants"))).sum,
        totalChallenges := store.challenges.length,
        weeklyImpact := 20 } := by
  unfold getChallengeStats
  have : ∀ d ∈ store.challenges,
      partContribution d.fields = specPartValue (getField d.fields "participants") := by
    intro d _
    unfold partContribution specPartValue
    rcases getField d.fields "participants" with _ | v
    · rfl
    · cases v <;> rfl
  rw [List.map_congr_left this]

/-- C5 witness: on the spec's example store (participants 3, null, missing,
5) the stats are totalParticipants 8, totalChallenges 4, weeklyImpact 20. -/
theorem c5_stats_confirmed_witness :
    (∀ d ∈ statsStore.challenges, participantsWellTyped d.fields = true) ∧
    getChallengeStats statsStore =
      { totalParticipants :=
          (statsStore.challenges.map (fun d => specPartValue (getField d.fields "participants"))).sum,
        totalChallenges := statsStore.challenges.length,
        weeklyImpact := 20 } :=
  ⟨by decide, c5_stats_confirmed statsStore (by decide)⟩

/-- C9: joining a challenge id that matches no challenge record (with a
userId holding no link for it) still succeeds: the link is inserted
referencing the nonexistent challenge and the participants `$inc` matches
zero documents, leaving the challenges collection unchanged. -/
theorem c9_join_without_challenge (store : Store) (cid : OId)
    (body : List (String × Value)) (now : Nat)
    (hnc : findChallenge store cid = none)
    (hnl : findLink store (normVal (getBody body "userId")) cid = none) :
    (joinChallenge store cid body now).2 =
      { status := 200, success := some true,
        message := some "Joined challenge successfully", errField := none } ∧
    (joinChallenge store cid body now).1.userChallenges =
      store.userChallenges ++
        [{ oid := OId.gen store.nextGen, userId := normVal (getBody body "userId"),
           challengeId := cid, status := Value.vStr "Not Started",
           progress := Value.vInt 0, joinDate := Value.vDate now, updateDate := none }] ∧
    (joinChallenge store cid body now).1.challenges = store.challenges := by
  have hinc := incFirstChallenge_of_find_none store.challenges cid hnc
  simp only [joinChallenge, hnl, hinc]
  refine ⟨?_, ?_, ?_⟩ <;> trivial

/-- C9 witness: on the empty store, joining an arbitrary well-formed id as
user "u1" answers success, inserts the dangling link, and leaves the
empty challenges collection empty. -/
theorem c9_join_without_challenge_witness :
    findChallenge emptyStore exOid = none ∧
    findLink emptyStore (normVal (getBody bodyU1 "userId")) exOid = none ∧
    ((joinChallenge emptyStore exOid bodyU1 3).2 =
      { status := 200, success := some true,
        message := some "Joined challenge successfully", errField := none } ∧
    (joinChallenge emptyStore exOid bodyU1 3).1.userChallenges =
      emptyStore.userChallenges ++
        [{ oid := OId.gen emptyStore.nextGen,
           userId := normVal (getBody bodyU1 "userId"),
           challengeId := exOid, status := Value.vStr "Not Started",
           progress := Value.vInt 0, joinDate := Value.vDate 3, updateDate := none }] ∧
    (joinChallenge emptyStore exOid bodyU1 3).1.challenges = emptyStore.challenges) :=
  ⟨by decide, by decide, c9_join_without_challenge emptyStore exOid bodyU1 3 (by decide) (by decide)⟩

/-- C2 counterexample: creating a challenge whose input carries
`participants: 5` and fetching it back yields a record with participants 5,
not 0 (the handler stores `participants || 0`). -/
theorem c2_create_counterexample :
    (findChallenge (createChallenge emptyStore bodyCreate 7).1
        (createChallenge emptyStore bodyCreate 7).2).map
      (fun d => getField d.fields "participants") = some (some (Value.vInt 5)) ∧
    Value.vInt 5 ≠ Value.vInt 0 := by decide

/-- C2 (amended): create-then-get returns the inserted record: each input
field stored as given (absent inputs as null), duration coerced through
`parseInt`, participants equal to the input value when truthy and 0
otherwise, status "active", createdDate stamped to the insertion time. -/
theorem c2_create_then_get (store : Store) (body : List (String × Value)) (now : Nat) (k : Int)
    (hfresh : findChallenge store (OId.gen store.nextGen) = none)
    (hdur : parseIntJS (getBody body "duration") = Value.vInt k) :
    ∃ d, findChallenge (createChallenge store body now).1 (createChallenge store body now).2 = some d ∧
      getField d.fields "title" = some (normVal (getBody body "title")) ∧
      getField d.fields "category" = some (normVal (getBody body "category")) ∧
      getField d.fields "description" = some (normVal (getBody body "description")) ∧
      getField d.fields "duration" = some (Value.vInt k) ∧
      getField d.fields "target" = some (normVal (getBody body "target")) ∧
      getField d.fields "participants" =
        some (normVal (if jsTruthy (getBody body "participants") then getBody body "participants"
                       else Value.vInt 0)) ∧
      getField d.fields "impactMetric" = some (normVal (getBody body "impactMetric")) ∧
      getField d.fields "createdBy" = some (normVal (getBody body "createdBy")) ∧
      getField d.fields "startDate" = some (normVal (getBody body "startDate")) ∧
      getField d.fields "endDate" = some (normVal (getBody body "endDate")) ∧
      getField d.fields "imageUrl" = some (normVal (getBody body "imageUrl")) ∧
      getField d.fields "createdDate" = some (Value.vDateStr now) ∧
      getField d.fields "status" = some (Value.vStr "active") := by
  have hfresh' : store.challenges.find? (fun d => d.oid = OId.gen store.nextGen) = none := hfresh
  refine ⟨{ oid := OId.gen store.nextGen, fields := newChallengeFields body now }, ?_, ?_⟩
  · simp only [createChallenge, findChallenge]
    rw [findFirst_append_of_none _ _ _ hfresh']
    exact List.find?_cons_of_pos _ (by simp)
  · refine ⟨?_, ?_, ?_, ?_, ?_, ?_, ?_, ?_, ?_, ?_, ?_, ?_, ?_⟩ <;>
      simp [newChallengeFields, getField, hdur, normVal]

/-- C2 witness: on the empty store with the example body (duration "30",
participants 5) the amended round trip holds with duration 30. -/
theorem c2_create_then_get_witness :
    findChallenge emptyStore (OId.gen emptyStore.nextGen) = none ∧
    parseIntJS (getBody bodyCreate "duration") = Value.vInt 30 ∧
    (∃ d, findChallenge (createChallenge emptyStore bodyCreate 7).1
        (createChallenge emptyStore bodyCreate 7).2 = some d ∧
      getField d.fields "title" = some (normVal (getBody bodyCreate "title")) ∧
      getField d.fields "category" = some (normVal (getBody bodyCreate "category")) ∧
      getField d.fields "description" = some (normVal (getBody bodyCreate "description")) ∧
      getField d.fields "duration" = some (Value.vInt 30) ∧
      getField d.fields "target" = some (normVal (getBody bodyCreate "target")) ∧
      getField d.fields "participants" =
        some (normVal (if jsTruthy (getBody bodyCreate "participants") then getBody bodyCreate "participants"
                       else Value.vInt 0)) ∧
      getField d.fields "impactMetric" = some (normVal (getBody bodyCreate "impactMetric")) ∧
      getField d.fields "createdBy" = some (normVal (getBody bodyCreate "createdBy")) ∧
      getField d.fields "startDate" = some (normVal (getBody bodyCreate "startDate")) ∧
      getField d.fields "endDate" = some (normVal (getBody bodyCreate "endDate")) ∧
      getField d.fields "imageUrl" = some (normVal (getBody bodyCreate "imageUrl")) ∧
      getField d.fields "createdDate" = some (Value.vDateStr 7) ∧
      getField d.fields "status" = some (Value.vStr "active")) :=
  ⟨by decide, by decide, c2_create_then_get emptyStore bodyCreate 7 30 (by decide) (by decide)⟩

/-- C4 counterexample: a structurally malformed id sent to the delete
handler produces HTTP 500, which the claim rules out. -/
theorem c4_malformed_counterexample :
    (deleteChallengeRoute emptyStore "xyz").2.status = 500 := by decide

/-- C4 (amended): `GET /challenges/:id` validates the id — 400 on a
malformed id, 404 on a well-formed unmatched one, never 500 — but
`DELETE /delete/challenge/:id` does not validate: a malformed id throws in
`new ObjectId` and yields 500, while a well-formed unmatched one yields
404. -/
theorem c4_id_validation (store : Store) (s₁ s₂ : String) (cid : OId)
    (h₁ : parseOId s₁ = none)
    (h₂ : parseOId s₂ = some cid)
    (h₃ : findChallenge store cid = none) :
    getChallengeRoute store s₁ =
      { status := 400, success := none, message := none, errField := some "Invalid ID" } ∧
    (deleteChallengeRoute store s₁).2.status = 500 ∧
    getChallengeRoute store s₂ =
      { status := 404, success := some false, message := some "Challenge not found", errField := none } ∧
    (deleteChallengeRoute store s₂).2.status = 404 := by
  have h₃' : store.challenges.find? (fun d => d.oid = cid) = none := h₃
  refine ⟨?_, ?_, ?_, ?_⟩ <;>
    simp [getChallengeRoute, deleteChallengeRoute, deleteChallenge, findChallenge, h₁, h₂, h₃']

/-- C4 witness: "xyz" is malformed (400 from GET, 500 from DELETE);
"doesnotexist" is twelve bytes, hence a structurally valid ObjectId that
matches nothing (404 from both). -/
theorem c4_id_validation_witness :
    parseOId "xyz" = none ∧
    parseOId "doesnotexist" = some (OId.parsed ("doesnotexist".toList.map Char.toNat)) ∧
    findChallenge emptyStore (OId.parsed ("doesnotexist".toList.map Char.toNat)) = none ∧
    (getChallengeRoute emptyStore "xyz" =
      { status := 400, success := none, message := none, errField := some "Invalid ID" } ∧
    (deleteChallengeRoute emptyStore "xyz").2.status = 500 ∧
    getChallengeRoute emptyStore "doesnotexist" =
      { status := 404, success := some false, message := some "Challenge not found", errField := none } ∧
    (deleteChallengeRoute emptyStore "doesnotexist").2.status = 404) :=
  ⟨by decide, by decide, by decide,
   c4_id_validation emptyStore "xyz" "doesnotexist"
     (OId.parsed ("doesnotexist".toList.map Char.toNat)) (by decide) (by decide) (by decide)⟩

/-- C6: deleting an existing challenge succeeds and a subsequent get
yields 404 NotFound; deleting an id matching no record yields 404 and
leaves the store unchanged.  (The Nodup hypothesis is MongoDB's unique
`_id` index.) -/
theorem c6_delete_then_get (store store₂ : Store) (cid cid₂ : OId) (d : ChallengeDoc)
    (hnd : (store.challenges.map (fun x => x.oid)).Nodup)
    (hin : findChallenge store cid = some d)
    (hout : findChallenge store₂ cid₂ = none) :
    (deleteChallenge store cid).2 =
      { status := 200, success := some true, message := some "Challenge deleted successfully", errField := none } ∧
    findChallenge (deleteChallenge store cid).1 cid = none ∧
    (∀ s : String, parseOId s = some cid →
      getChallengeRoute (deleteChallenge store cid).1 s =
        { status := 404, success := some false, message := some "Challenge not found", errField := none }) ∧
    deleteChallenge store₂ cid₂ =
      (store₂, { status := 404, success := some false, message := some "Challenge not found", errField := none }) := by
  have hin' : store.challenges.find? (fun x => x.oid = cid) = some d := hin
  have hgone : ((store.challenges.eraseP (fun x => x.oid = cid)).find?
      (fun x => x.oid = cid)) = none := findFirst_eraseP_of_nodup store.challenges cid hnd
  have hout' : store₂.challenges.find? (fun x => x.oid = cid₂) = none := hout
  refine ⟨?_, ?_, ?_, ?_⟩
  · simp [deleteChallenge, hin']
  · simp [deleteChallenge, hin', findChallenge, hgone]
  · intro s hs
    simp [getChallengeRoute, hs, deleteChallenge, hin', findChallenge, hgone]
  · simp [deleteChallenge, hout']

/-- C6 witness: deleting the one stored challenge gives success and then
404 on its 24-hex-character id string; deleting from the empty store gives
404. -/
theorem c6_delete_then_get_witness :
    ((storeOne.challenges.map (fun x => x.oid)).Nodup ∧
     findChallenge storeOne exOid = some exChallenge ∧
     findChallenge emptyStore exOid2 = none) ∧
    ((deleteChallenge storeOne exOid).2 =
      { status := 200, success := some true, message := some "Challenge deleted successfully", errField := none } ∧
    findChallenge (deleteChallenge storeOne exOid).1 exOid = none ∧
    (∀ s : String, parseOId s = some exOid →
      getChallengeRoute (deleteChallenge storeOne exOid).1 s =
        { status := 404, success := some false, message := some "Challenge not found", errField := none }) ∧
    deleteChallenge emptyStore exOid2 =
      (emptyStore, { status := 404, success := some false, message := some "Challenge not found", errField := none })) :=
  ⟨⟨by decide, by decide, by decide⟩,
   c6_delete_then_get storeOne emptyStore exOid exOid2 exChallenge
     (by decide) (by decide) (by decide)⟩

/-- C10: the progress update overwrites status and progress with the body
values on the matched link unconditionally — an omitted body field is
`undefined`, stored as `null` (replaced, not preserved) — and stamps
updateDate on every successful call. -/
theorem c10_progress_overwrite (store : Store) (uidStr : String) (lid : OId)
    (body : List (String × Value)) (now : Nat) (link : UserChallengeDoc)
    (hf : findUserChallenge store uidStr lid = some link) :
    (updateUserChallengeProgress store uidStr lid body now).2 =
      { status := 200, success := some true, message := some "Progress updated successfully", errField := none } ∧
    findUserChallenge (updateUserChallengeProgress store uidStr lid body now).1 uidStr lid =
      some { link with status := normVal (getBody body "status"),
                       progress := normVal (getBody body "progress"),
                       updateDate := some (Value.vDate now) } ∧
    (getField body "status" = none → normVal (getBody body "status") = Value.vNull) ∧
    (getField body "progress" = none → normVal (getBody body "progress") = Value.vNull) := by
  refine ⟨?_, ?_, ?_, ?_⟩
  · simp [updateUserChallengeProgress, hf]
  · have hf' : store.userChallenges.find?
        (fun l => decide (l.userId = Value.vStr uidStr ∧ l.oid = lid)) = some link := hf
    simp only [updateUserChallengeProgress, hf]
    show findUserChallenge _ uidStr lid = _
    unfold findUserChallenge
    rw [findFirst_updateFirstLink, hf']
    rfl
  · intro h; simp [getBody, h, normVal]
  · intro h; simp [getBody, h, normVal]

/-- C10 witness: patching the joined store's link with an empty body sets
status and progress to null and stamps updateDate. -/
theorem c10_progress_overwrite_witness :
    findUserChallenge storeJoined "u1" (OId.gen 5) = some exLink ∧
    ((updateUserChallengeProgress storeJoined "u1" (OId.gen 5) [] 9).2 =
      { status := 200, success := some true, message := some "Progress updated successfully", errField := none } ∧
    findUserChallenge (updateUserChallengeProgress storeJoined "u1" (OId.gen 5) [] 9).1 "u1" (OId.gen 5) =
      some { exLink with status := normVal (getBody [] "status"),
                         progress := normVal (getBody [] "progress"),
                         updateDate := some (Value.vDate 9) } ∧
    (getField ([] : List (String × Value)) "status" = none → normVal (getBody [] "status") = Value.vNull) ∧
    (getField ([] : List (String × Value)) "progress" = none → normVal (getBody [] "progress") = Value.vNull)) :=
  ⟨by decide, c10_progress_overwrite storeJoined "u1" (OId.gen 5) [] 9 exLink (by decide)⟩

/-- C1 counterexample: on a store where the link already exists, the FIRST
join call already answers 400 Conflict, so the claim's leading success does
not hold for every store state. -/
theorem c1_join_counterexample :
    (joinChallenge storeJoined exOid bodyU1 9).2 =
      { status := 400, success := some false, message := some "Already joined", errField := none } := by
  decide

/-- C1 (amended): on a store with no existing link for (userId,
challengeId) whose challenge record has an integer participants counter p,
joining twice yields success then Conflict (400 "Already joined"), the
second call leaves the store unchanged, and the counter ends at p + 1 —
incremented exactly once across the two calls. -/
theorem c1_join_twice (store : Store) (cid : OId) (body : List (String × Value))
    (now₁ now₂ : Nat) (d : ChallengeDoc) (p : Int)
    (hnl : findLink store (normVal (getBody body "userId")) cid = none)
    (hc : findChallenge store cid = some d)
    (hp : getField d.fields "participants" = some (Value.vInt p)) :
    (joinChallenge store cid body now₁).2 =
      { status := 200, success := some true, message := some "Joined challenge successfully", errField := none } ∧
    (joinChallenge (joinChallenge store cid body now₁).1 cid body now₂).2 =
      { status := 400, success := some false, message := some "Already joined", errField := none } ∧
    (joinChallenge (joinChallenge store cid body now₁).1 cid body now₂).1 =
      (joinChallenge store cid body now₁).1 ∧
    (findChallenge (joinChallenge store cid body now₁).1 cid).map
      (fun x => getField x.fields "participants") = some (some (Value.vInt (p + 1))) := by
  have hinc : incParticipants d.fields =
      some (setField d.fields "participants" (Value.vInt (p + 1))) := by
    unfold incParticipants; rw [hp]
  obtain ⟨l', hl', hfind⟩ :=
    incFirstChallenge_of_find_some store.challenges cid d _ hc hinc
  have hjoin1 : joinChallenge store cid body now₁ =
      ({ challenges := l',
         userChallenges := store.userChallenges ++
           [{ oid := OId.gen store.nextGen, userId := normVal (getBody body "userId"),
              challengeId := cid, status := Value.vStr "Not Started",
              progress := Value.vInt 0, joinDate := Value.vDate now₁, updateDate := none }],
         nextGen := store.nextGen + 1 },
       { status := 200, success := some true, message := some "Joined challenge successfully", errField := none }) := by
    simp only [joinChallenge, hnl, hl']
  have hnl' : store.userChallenges.find?
      (fun l => decide (l.userId = normVal (getBody body "userId") ∧ l.challengeId = cid)) = none := hnl
  have hlink2 : findLink (joinChallenge store cid body now₁).1
      (normVal (getBody body "userId")) cid =
      some { oid := OId.gen store.nextGen, userId := normVal (getBody body "userId"),
             challengeId := cid, status := Value.vStr "Not Started",
             progress := Value.vInt 0, joinDate := Value.vDate now₁, updateDate := none } := by
    rw [hjoin1]
    unfold findLink
    show (store.userChallenges ++ [_]).find? _ = _
    rw [findFirst_append_of_none _ _ _ hnl']
    exact List.find?_cons_of_pos _ (by simp)
  refine ⟨by rw [hjoin1], ?_, ?_, ?_⟩
  · rw [hjoin1]
    simp only [joinChallenge, findLink]
    rw [findFirst_append_of_none _ _ _ hnl', List.find?_cons_of_pos _ (by simp)]
  · rw [hjoin1]
    simp only [joinChallenge, findLink]
    rw [findFirst_append_of_none _ _ _ hnl', List.find?_cons_of_pos _ (by simp)]
  · rw [hjoin1]
    show (l'.find? (fun d => d.oid = cid)).map (fun x => getField x.fields "participants") =
      some (some (Value.vInt (p + 1)))
    rw [hfind]
    simp [getField_setField_self]

/-- C1 witness: joining the one stored challenge (participants 3) twice as
"u1" answers success then 400 "Already joined", with participants ending
at 4. -/
theorem c1_join_twice_witness :
    (findLink storeOne (normVal (getBody bodyU1 "userId")) exOid = none ∧
     findChallenge storeOne exOid = some exChallenge ∧
     getField exChallenge.fields "participants" = some (Value.vInt 3)) ∧
    ((joinChallenge storeOne exOid bodyU1 1).2 =
      { status := 200, success := some true, message := some "Joined challenge successfully", errField := none } ∧
    (joinChallenge (joinChallenge storeOne exOid bodyU1 1).1 exOid bodyU1 2).2 =
      { status := 400, success := some false, message := some "Already joined", errField := none } ∧
    (joinChallenge (joinChallenge storeOne exOid bodyU1 1).1 exOid bodyU1 2).1 =
      (joinChallenge storeOne exOid bodyU1 1).1 ∧
    (findChallenge (joinChallenge storeOne exOid bodyU1 1).1 exOid).map
      (fun x => getField x.fields "participants") = some (some (Value.vInt (3 + 1)))) :=
  ⟨⟨by decide, by decide, by decide⟩,
   c1_join_twice storeOne exOid bodyU1 1 2 exChallenge 3 (by decide) (by decide) (by decide)⟩

/-- C3 counterexample: the search string is passed to `$regex`, not matched
literally: searching "a.c" returns the challenge titled "abc" (the dot is a
wildcard) although no title contains "a.c" as a substring, so the result is
not "exactly the challenges whose title contains s". -/
theorem c3_search_counterexample :
    listChallenges regexStore (some "a.c") = regexStore.challenges ∧
    (∀ d ∈ regexStore.challenges, specTitleContains d.fields "a.c" = false) ∧
    regexStore.challenges ≠ [] := by decide

/-- C3 (amended): the search string is interpreted as a case-insensitive
regular expression; for a nonempty search string free of regex
metacharacters this coincides with a case-insensitive substring match on
title, and with no search string — or an empty one, which is falsy — all
challenge records are returned. -/
theorem c3_search_filter (store : Store) (s : String)
    (hmeta : noMeta s = true) (hne : s ≠ "") :
    listChallenges store (some s) =
      store.challenges.filter (fun d => specTitleContains d.fields s) ∧
    listChallenges store none = store.challenges ∧
    listChallenges store (some "") = store.challenges := by
  have hnm : ∀ x ∈ s.toList, regexMeta x = false := by
    intro x hx
    simpa using List.all_eq_true.mp hmeta x hx
  refine ⟨?_, rfl, by simp [listChallenges]⟩
  show (if s ≠ "" then store.challenges.filter (fun d => titleRegexMatch d.fields s)
        else store.challenges) =
    store.challenges.filter (fun d => specTitleContains d.fields s)
  rw [if_pos hne]
  apply List.filter_congr
  intro d _
  unfold titleRegexMatch specTitleContains
  cases hgf : getField d.fields "title" with
  | none => rfl
  | some v =>
      cases v <;> try rfl
      exact regexSearchCI_noMeta _ _ hnm

/-- C3 witness: searching "ab" (no metacharacters) on the store titled
"abc" returns exactly the substring matches; no filter returns all. -/
theorem c3_search_filter_witness :
    noMeta "ab" = true ∧ "ab" ≠ "" ∧
    (listChallenges regexStore (some "ab") =
      regexStore.challenges.filter (fun d => specTitleContains d.fields "ab") ∧
    listChallenges regexStore none = regexStore.challenges ∧
    listChallenges regexStore (some "") = regexStore.challenges) :=
  ⟨by decide, by decide, c3_search_filter regexStore "ab" (by decide) (by decide)⟩

/-- C7 counterexample: a partialFields object carrying an `_id` key is not
merged — MongoDB rejects the update of the matched document (`_id` is
immutable), the handler answers 500, and the store is unchanged, so the
claim does not hold for every partialFields object. -/
theorem c7_update_counterexample :
    (updateChallenge storeOne exOid [("_id", Value.vStr "x")] 9).2.status = 500 ∧
    (updateChallenge storeOne exOid [("_id", Value.vStr "x")] 9).1 = storeOne := by
  decide

/-- C7 (amended): for every existing challenge id and every partialFields
object without an `_id` key (and with plain field names, the fragment the
flat field model covers), the update answers success and sets exactly the
partialFields plus a freshly stamped updatedOn, leaving all other fields of
the record unchanged; an id matching zero records yields 404 NotFound with
the store unchanged. -/
theorem c7_update_merge (store store₂ : Store) (cid cid₂ : OId)
    (body : List (String × Value)) (now : Nat) (d : ChallengeDoc)
    (hc : findChallenge store cid = some d)
    (hnid : getField body "_id" = none)
    (hnd : (body.map Prod.fst).Nodup)
    (_hplain : ∀ k ∈ body.map Prod.fst, plainKey k = true)
    (hc₂ : findChallenge store₂ cid₂ = none) :
    (updateChallenge store cid body now).2 =
      { status := 200, success := some true, message := some "Challenge updated successfully", errField := none } ∧
    (∃ d', findChallenge (updateChallenge store cid body now).1 cid = some d' ∧
      getField d'.fields "updatedOn" = some (Value.vDate now) ∧
      (∀ k v, (k, v) ∈ body → k ≠ "updatedOn" → getField d'.fields k = some (normVal v)) ∧
      (∀ k, k ∉ body.map Prod.fst → k ≠ "updatedOn" → getField d'.fields k = getField d.fields k)) ∧
    updateChallenge store₂ cid₂ body now =
      (store₂, { status := 404, success := some false, message := some "Challenge not found", errField := none }) := by
  have hid : getField (setField body "updatedOn" (Value.vDate now)) "_id" = none := by
    rw [getField_setField_ne _ _ _ _ (by decide)]
    exact hnid
  have hndu : ((setField body "updatedOn" (Value.vDate now)).map Prod.fst).Nodup :=
    nodup_keys_setField _ _ _ hnd
  have hupd : updateChallenge store cid body now =
      ({ store with challenges := updateFirstChallenge store.challenges cid (fun fs => applySet fs (setField body "updatedOn" (Value.vDate now))) },
       { status := 200, success := some true, message := some "Challenge updated successfully", errField := none }) := by
    simp only [updateChallenge, hc, hid, Option.isSome_none, Bool.false_eq_true, if_false]
  refine ⟨by rw [hupd], ?_, ?_⟩
  · refine ⟨{ d with fields := applySet d.fields (setField body "updatedOn" (Value.vDate now)) }, ?_, ?_, ?_, ?_⟩
    · rw [hupd]
      show (updateFirstChallenge store.challenges cid _).find? (fun x => x.oid = cid) = _
      rw [findFirst_updateFirstChallenge]
      have hc' : store.challenges.find? (fun x => x.oid = cid) = some d := hc
      rw [hc']
      rfl
    · rw [getField_applySet_mem _ _ _ _ hndu (mem_setField_self _ _ _)]
      rfl
    · intro k v hkv hkne
      rw [getField_applySet_mem _ _ _ _ hndu (mem_setField_of_mem _ _ _ _ _ hkv hkne)]
    · intro k hk hkne
      exact getField_applySet_notMem _ _ _ (notMem_keys_setField _ _ _ _ hk hkne)
  · simp only [updateChallenge, hc₂]

/-- C7 witness: patching the one stored challenge with {status:
"completed"} sets status and stamps updatedOn, leaves title and
participants unchanged; patching the empty store yields 404 with the store
unchanged. -/
theorem c7_update_merge_witness :
    (findChallenge storeOne exOid = some exChallenge ∧
     getField bodyStatusCompleted "_id" = none ∧
     (bodyStatusCompleted.map Prod.fst).Nodup ∧
     (∀ k ∈ bodyStatusCompleted.map Prod.fst, plainKey k = true) ∧
     findChallenge emptyStore exOid2 = none) ∧
    ((updateChallenge storeOne exOid bodyStatusCompleted 9).2 =
      { status := 200, success := some true, message := some "Challenge updated successfully", errField := none } ∧
    (∃ d', findChallenge (updateChallenge storeOne exOid bodyStatusCompleted 9).1 exOid = some d' ∧
      getField d'.fields "updatedOn" = some (Value.vDate 9) ∧
      (∀ k v, (k, v) ∈ bodyStatusCompleted → k ≠ "updatedOn" → getField d'.fields k = some (normVal v)) ∧
      (∀ k, k ∉ bodyStatusCompleted.map Prod.fst → k ≠ "updatedOn" →
        getField d'.fields k = getField exChallenge.fields k)) ∧
    updateChallenge emptyStore exOid2 bodyStatusCompleted 9 =
      (emptyStore, { status := 404, success := some false, message := some "Challenge not found", errField := none })) :=
  ⟨⟨by decide, by decide, by decide, by decide, by decide⟩,
   c7_update_merge storeOne emptyStore exOid exOid2 bodyStatusCompleted 9 exChallenge
     (by decide) (by decide) (by decide) (by decide) (by decide)⟩

/-- C8 counterexample: the generic update endpoint sets participants
directly when the body carries a participants key — the stored counter 3
becomes 99 without any join — refuting the invariant as claimed. -/
theorem c8_participants_counterexample :
    getField exChallenge.fields "participants" = some (Value.vInt 3) ∧
    (findChallenge (updateChallenge storeOne exOid [("participants", Value.vInt 99)] 9).1 exOid).map
      (fun d => getField d.fields "participants") = some (some (Value.vInt 99)) := by
  decide

/-- C8 (amended): a generic update whose partialFields contains no
participants key leaves every challenge's (id, participants) view
unchanged, and a join changes participants only on the targeted challenge,
only as an increment by 1 — but an update body that does contain a
participants key can set the counter directly (the endpoint does not
protect it). -/
theorem c8_participants_sources (store store₂ : Store) (cid cid₂ : OId)
    (body body₂ : List (String × Value)) (now now₂ : Nat)
    (hnp : "participants" ∉ body.map Prod.fst) :
    partsOf (updateChallenge store cid body now).1.challenges = partsOf store.challenges ∧
    List.Forall₂ (participantsStep cid₂) store₂.challenges
      (joinChallenge store₂ cid₂ body₂ now₂).1.challenges := by
  constructor
  · cases hc : findChallenge store cid with
    | none => simp [updateChallenge, hc]
    | some d =>
        by_cases hid : (getField (setField body "updatedOn" (Value.vDate now)) "_id").isSome = true
        · simp [updateChallenge, hc, hid]
        · simp only [updateChallenge, hc, hid, if_false]
          apply partsOf_updateFirstChallenge
          intro fs
          exact getField_applySet_notMem _ _ _
            (notMem_keys_setField _ _ _ _ hnp (by decide))
  · cases hl : findLink store₂ (normVal (getBody body₂ "userId")) cid₂ with
    | some l =>
        simp only [joinChallenge, hl]
        exact List.forall₂_same.mpr (fun x _ => ⟨rfl, Or.inl rfl⟩)
    | none =>
        cases hF : incFirstChallenge store₂.challenges cid₂ with
        | some chs =>
            simp only [joinChallenge, hl, hF]
            exact forall₂_incFirstChallenge _ _ _ hF
        | none =>
            simp only [joinChallenge, hl, hF]
            exact List.forall₂_same.mpr (fun x _ => ⟨rfl, Or.inl rfl⟩)

/-- C8 witness: patching status only leaves the (id, participants) view of
the store intact, and the join from the same store relates the stored
challenge to its incremented version. -/
theorem c8_participants_sources_witness :
    "participants" ∉ bodyStatusCompleted.map Prod.fst ∧
    (partsOf (updateChallenge storeOne exOid bodyStatusCompleted 9).1.challenges =
      partsOf storeOne.challenges ∧
    List.Forall₂ (participantsStep exOid) storeOne.challenges
      (joinChallenge storeOne exOid bodyU1 1).1.challenges) :=
  ⟨by decide,
   c8_participants_sources storeOne storeOne exOid exOid bodyStatusCompleted bodyU1 9 1 (by decide)⟩

end EcoTrack
